import Mathlib

/-!
# Verification of the VCF parsing core (`src/app.py`, class `VCFParser`)

This file is a shallow embedding, in Lean 4, of the parsing core of the
VCF-to-spreadsheet converter: the decoder candidate loop (`VCFParser.parse`,
lines 64-78), the per-block line loop of `VCFParser.parse_vcard`
(lines 106-158), the field mapper `VCFParser._extract_field_data`
(lines 160-254) with its type-disambiguation helpers (lines 256-300), the
date normalizer `VCFParser._format_date` (lines 302-318, whose `strptime`
calls are modelled after CPython's `_strptime` directive regexes for
`%Y`, `%m`, `%d` including their backtracking order), and the field grouping
`VCFParser.get_field_suggestions` (lines 324-343).

Strings are Lean `String`s; the primitive Python string operations
(`strip`, `upper`, `lower`, `title`, `split`, `replace`, `startswith`,
membership) are modelled character-by-character on `String.data`, for the
ASCII inputs the parser is concerned with.  Python dicts of strings are
modelled as insertion-ordered association lists, with assignment replacing
the value of an existing key in place.  Raw bytes are `Nat`s below 256.
-/

set_option maxRecDepth 8000

namespace VCF

/-! ## Python string primitives -/

/-- ASCII decimal digit test (`0`-`9`), as in the regex class `\d` on the
ASCII inputs considered here. -/
def isDigitC (c : Char) : Bool := 48 ≤ c.toNat && c.toNat ≤ 57

/-- Numeric value of an ASCII digit character. -/
def charVal (c : Char) : Nat := c.toNat - 48

/-- Python `str.strip` whitespace class (ASCII part). -/
def isPySpace (c : Char) : Bool :=
  c == ' ' || c == '\t' || c == '\n' || c == '\r' || c == '\x0b' || c == '\x0c'

/-- ASCII letter test. -/
def isAsciiAlpha (c : Char) : Bool :=
  (65 ≤ c.toNat && c.toNat ≤ 90) || (97 ≤ c.toNat && c.toNat ≤ 122)

/-- ASCII upcasing of one character, as done by `str.upper` on ASCII text. -/
def upChar (c : Char) : Char :=
  if 97 ≤ c.toNat && c.toNat ≤ 122 then Char.ofNat (c.toNat - 32) else c

/-- ASCII downcasing of one character, as done by `str.lower` on ASCII text. -/
def lowChar (c : Char) : Char :=
  if 65 ≤ c.toNat && c.toNat ≤ 90 then Char.ofNat (c.toNat + 32) else c

/-- Python `str.strip()`: drop whitespace from both ends. -/
def pyStripL (l : List Char) : List Char :=
  ((l.dropWhile isPySpace).reverse.dropWhile isPySpace).reverse

def pyStrip (s : String) : String := ⟨pyStripL s.data⟩

def pyUpper (s : String) : String := ⟨s.data.map upChar⟩

def pyLower (s : String) : String := ⟨s.data.map lowChar⟩

/-- Python `str.startswith`. -/
def pyStartsWith (s pre : String) : Bool := pre.data.isPrefixOf s.data

/-- Python `sep in s` for a single character. -/
def containsChar (c : Char) (s : String) : Bool := s.data.contains c

/-- Python `str.split(sep)` for a one-character separator: splits on every
occurrence, keeping empty segments (Python semantics). -/
def splitOnCharL (sep : Char) : List Char → List (List Char)
  | [] => [[]]
  | c :: rest =>
    if c == sep then [] :: splitOnCharL sep rest
    else
      match splitOnCharL sep rest with
      | s :: ss => (c :: s) :: ss
      | [] => [[c]]

def splitOnChar (sep : Char) (s : String) : List String :=
  (splitOnCharL sep s.data).map String.mk

/-- Python `str.split(sep, 1)` on the first occurrence; `none` when the separator
does not occur (mirroring the `':' not in line` guard). -/
def splitFirstL (sep : Char) : List Char → Option (List Char × List Char)
  | [] => none
  | c :: rest =>
    if c == sep then some ([], rest)
    else (splitFirstL sep rest).map (fun p => (c :: p.1, p.2))

def splitFirst (sep : Char) (s : String) : Option (String × String) :=
  (splitFirstL sep s.data).map (fun p => (⟨p.1⟩, ⟨p.2⟩))

/-- One step of `str.title()`: a cased character is upcased after a
non-letter and downcased after a letter. -/
def titleL : List Char → Bool → List Char
  | [], _ => []
  | c :: rest, prevAlpha =>
    (if isAsciiAlpha c then (if prevAlpha then lowChar c else upChar c) else c)
      :: titleL rest (isAsciiAlpha c)

/-- Python `str.title()` (ASCII). -/
def pyTitle (s : String) : String := ⟨titleL s.data false⟩

/-- Python `str.replace(needle, repl)` for a non-empty needle, scanning left to
right over non-overlapping occurrences.  The fuel argument (instantiated
with the length of the string) only makes the recursion structural; one
unit of fuel is spent per examined position. -/
def replaceLAux (needle repl : List Char) : Nat → List Char → List Char
  | _, [] => []
  | 0, l => l
  | fuel + 1, c :: rest =>
    if needle.isPrefixOf (c :: rest) && !needle.isEmpty then
      repl ++ replaceLAux needle repl fuel ((c :: rest).drop needle.length)
    else
      c :: replaceLAux needle repl fuel rest

def pyReplace (s needle repl : String) : String :=
  ⟨replaceLAux needle.data repl.data s.data.length s.data⟩

/-- Python `kw in s`: substring containment. -/
def containsSubL (needle : List Char) : List Char → Bool
  | [] => needle.isEmpty
  | c :: rest => needle.isPrefixOf (c :: rest) || containsSubL needle rest

def containsSub (s needle : String) : Bool := containsSubL needle.data s.data

/-! ## Python `dict` and `set`, specialised to strings

`contact[key] = value` on a string dict: if the key is present its value is
replaced in place (insertion order kept), otherwise the pair is appended.
`set.add` appends the element when absent. -/

abbrev Contact := List (String × String)

def dictInsert (c : Contact) (k v : String) : Contact :=
  if c.any (fun kv => kv.1 == k) then
    c.map (fun kv => if kv.1 == k then (kv.1, v) else kv)
  else
    c ++ [(k, v)]

def lookupField (c : Contact) (k : String) : Option String :=
  (c.find? (fun kv => kv.1 == k)).map (fun kv => kv.2)

def setAdd (s : List String) (k : String) : List String :=
  if s.contains k then s else s ++ [k]

/-- Parser state: the contact record under construction plus the
accumulated `self.all_fields`.  Every branch of `_extract_field_data` does
`contact[field_name] = value` immediately followed by
`self.all_fields.add(field_name)`; `addField` is that pair of statements. -/
abbrev PState := Contact × List String

def addField (st : PState) (k v : String) : PState :=
  (dictInsert st.1 k v, setAdd st.2 k)

/-! ## `_format_date` (lines 302-318)

`datetime.strptime(date_str, fmt)` for the four formats
`['%Y%m%d', '%Y-%m-%d', '%m/%d/%Y', '%d/%m/%Y']` is modelled after
CPython's `_strptime`: each directive becomes a regex fragment
(`%Y` is `\d\d\d\d`, `%m` is `1[0-2]|0[1-9]|[1-9]`,
`%d` is `3[01]|[12]\d|0[1-9]|[1-9]`), the whole format is matched at the
start of the string with ordered-alternative backtracking, the match must
consume the entire string, and the captured numbers must form a valid
`datetime.date` (year 1-9999, day within the month, Gregorian leap rule).
A directive parser returns the list of its candidate parses in regex
alternative order, so the first complete match of the whole format — the
head of the nondeterminism list — is the one Python's regex engine finds. -/

/-- Regex fragment `\d\d\d\d` for `%Y`: exactly four digits. -/
def parseY : List Char → List (Nat × List Char)
  | a :: b :: c :: d :: rest =>
    if isDigitC a && isDigitC b && isDigitC c && isDigitC d then
      [(charVal a * 1000 + charVal b * 100 + charVal c * 10 + charVal d, rest)]
    else []
  | _ => []

/-- Regex fragment `1[0-2]|0[1-9]|[1-9]` for `%m`, candidates in
alternative order. -/
def parseM : List Char → List (Nat × List Char)
  | a :: b :: rest =>
    (if a == '1' && (b == '0' || b == '1' || b == '2') then
        [(10 + charVal b, rest)] else []) ++
    (if a == '0' && isDigitC b && b != '0' then [(charVal b, rest)] else []) ++
    (if isDigitC a && a != '0' then [(charVal a, b :: rest)] else [])
  | [a] => if isDigitC a && a != '0' then [(charVal a, [])] else []
  | [] => []

/-- Regex fragment `3[01]|[12]\d|0[1-9]|[1-9]` for `%d`, candidates in
alternative order. -/
def parseD : List Char → List (Nat × List Char)
  | a :: b :: rest =>
    (if a == '3' && (b == '0' || b == '1') then [(30 + charVal b, rest)] else []) ++
    (if (a == '1' || a == '2') && isDigitC b then
        [(charVal a * 10 + charVal b, rest)] else []) ++
    (if a == '0' && isDigitC b && b != '0' then [(charVal b, rest)] else []) ++
    (if isDigitC a && a != '0' then [(charVal a, b :: rest)] else [])
  | [a] => if isDigitC a && a != '0' then [(charVal a, [])] else []
  | [] => []

/-- A literal character of the format string. -/
def parseLit (c : Char) : List Char → List (List Char)
  | a :: rest => if a == c then [rest] else []
  | [] => []

/-- All backtracking matches of `%Y%m%d`, as `(year, month, day, rest)`. -/
def matchYmd (cs : List Char) : List (Nat × Nat × Nat × List Char) :=
  (parseY cs).flatMap fun yr =>
  (parseM yr.2).flatMap fun mr =>
  (parseD mr.2).map fun dr => (yr.1, mr.1, dr.1, dr.2)

/-- All backtracking matches of `%Y-%m-%d`. -/
def matchYdash (cs : List Char) : List (Nat × Nat × Nat × List Char) :=
  (parseY cs).flatMap fun yr =>
  (parseLit '-' yr.2).flatMap fun r1 =>
  (parseM r1).flatMap fun mr =>
  (parseLit '-' mr.2).flatMap fun r2 =>
  (parseD r2).map fun dr => (yr.1, mr.1, dr.1, dr.2)

/-- All backtracking matches of `%m/%d/%Y`. -/
def matchMdy (cs : List Char) : List (Nat × Nat × Nat × List Char) :=
  (parseM cs).flatMap fun mr =>
  (parseLit '/' mr.2).flatMap fun r1 =>
  (parseD r1).flatMap fun dr =>
  (parseLit '/' dr.2).flatMap fun r2 =>
  (parseY r2).map fun yr => (yr.1, mr.1, dr.1, yr.2)

/-- All backtracking matches of `%d/%m/%Y`. -/
def matchDmy (cs : List Char) : List (Nat × Nat × Nat × List Char) :=
  (parseD cs).flatMap fun dr =>
  (parseLit '/' dr.2).flatMap fun r1 =>
  (parseM r1).flatMap fun mr =>
  (parseLit '/' mr.2).flatMap fun r2 =>
  (parseY r2).map fun yr => (yr.1, mr.1, dr.1, yr.2)

def isLeap (y : Nat) : Bool := (y % 4 == 0 && y % 100 != 0) || y % 400 == 0

def daysInMonth (y m : Nat) : Nat :=
  if m == 2 then (if isLeap y then 29 else 28)
  else if m == 4 || m == 6 || m == 9 || m == 11 then 30
  else 31

/-- The `datetime.date(year, month, day)` constructor's validity check
(`MINYEAR = 1`, `MAXYEAR = 9999`). -/
def validDate (y m d : Nat) : Bool :=
  1 ≤ y && y ≤ 9999 && 1 ≤ m && m ≤ 12 && 1 ≤ d && d ≤ daysInMonth y m

/-- Model of `strptime` for one format: take the regex engine's match (the head of
the backtracking list); it must consume the whole string
("unconverted data remains" otherwise) and denote a constructible date. -/
def tryFormat (ms : List (Nat × Nat × Nat × List Char)) : Option (Nat × Nat × Nat) :=
  match ms.head? with
  | some (y, m, d, []) => if validDate y m d then some (y, m, d) else none
  | _ => none

/-- The `for fmt in formats` loop: first format that parses wins. -/
def strptimeFirst (cs : List Char) : Option (Nat × Nat × Nat) :=
  match tryFormat (matchYmd cs) with
  | some t => some t
  | none =>
    match tryFormat (matchYdash cs) with
    | some t => some t
    | none =>
      match tryFormat (matchMdy cs) with
      | some t => some t
      | none => tryFormat (matchDmy cs)

/-- Two-digit zero-padded rendering (`%m`, `%d` of `strftime`). -/
def pad2 (n : Nat) : List Char := [Nat.digitChar (n / 10 % 10), Nat.digitChar (n % 10)]

/-- Four-digit zero-padded rendering (`%Y` of `strftime`, per the
documented format-code table). -/
def pad4 (n : Nat) : List Char :=
  [Nat.digitChar (n / 1000 % 10), Nat.digitChar (n / 100 % 10),
   Nat.digitChar (n / 10 % 10), Nat.digitChar (n % 10)]

/-- Model of `date_obj.strftime` with format `%Y-%m-%d`. -/
def canonChars (y m d : Nat) : List Char :=
  pad4 y ++ ('-' :: (pad2 m ++ ('-' :: pad2 d)))

/-- Function `VCFParser._format_date`: first matching pattern reformats to
`YYYY-MM-DD`; no match returns the input unchanged. -/
def format_date (s : String) : String :=
  match strptimeFirst s.data with
  | some (y, m, d) => ⟨canonChars y m d⟩
  | none => s

/-! ## Type-disambiguation helpers (lines 256-300) -/

def telTypeMapping : List (String × String) :=
  [("HOME", "Home"), ("WORK", "Work"), ("CELL", "Mobile"), ("MOBILE", "Mobile"),
   ("FAX", "Fax"), ("PAGER", "Pager"), ("VOICE", "Voice"), ("MAIN", "Main")]

def emailTypeMapping : List (String × String) :=
  [("HOME", "Home"), ("WORK", "Work"), ("INTERNET", "Internet")]

def addrTypeMapping : List (String × String) :=
  [("HOME", "Home"), ("WORK", "Work")]

/-- Python `param in type_mapping` / `type_mapping[param]` on a dict literal. -/
def lookupAssoc (l : List (String × String)) (k : String) : Option String :=
  (l.find? (fun kv => kv.1 == k)).map (fun kv => kv.2)

/-- Function `VCFParser._get_phone_type`: the `for param in parameters` loop returns
on the first parameter found in the mapping, else `'Phone'`. -/
def get_phone_type : List String → String
  | [] => "Phone"
  | p :: rest =>
    match lookupAssoc telTypeMapping p with
    | some t => t
    | none => get_phone_type rest

/-- Function `VCFParser._get_email_type`. -/
def get_email_type : List String → String
  | [] => "Email"
  | p :: rest =>
    match lookupAssoc emailTypeMapping p with
    | some t => t
    | none => get_email_type rest

/-- Function `VCFParser._get_address_type`. -/
def get_address_type : List String → String
  | [] => "Address"
  | p :: rest =>
    match lookupAssoc addrTypeMapping p with
    | some t => t
    | none => get_address_type rest

/-! ## `_extract_field_data` (lines 160-254) -/

def name_fields : List String :=
  ["Last Name", "First Name", "Middle Name", "Name Prefix", "Name Suffix"]

def addr_fields : List String :=
  ["PO Box", "Extended Address", "Street Address", "City", "State/Province",
   "Postal Code", "Country"]

/-- The TEL field name of lines 179-180:
`f'Phone ({phone_type})' if phone_type != 'Phone' else 'Phone'`. -/
def telFieldName (parameters : List String) : String :=
  let phone_type := get_phone_type parameters
  if phone_type != "Phone" then "Phone (" ++ phone_type ++ ")" else "Phone"

/-- Sanitization `re.sub` keeping digits and phone punctuation: keep digits, `+`, `-`, `(`,
`)` and whitespace. -/
def keepPhoneChar (c : Char) : Bool :=
  isDigitC c || c == '+' || c == '-' || c == '(' || c == ')' || isPySpace c

def cleanPhone (value : String) : String := ⟨value.data.filter keepPhoneChar⟩

/-- Function `VCFParser._extract_field_data`: dispatch on the property name and
insert the derived fields into the contact and `all_fields`. -/
def extract_field_data (st : PState) (property_name value : String)
    (parameters : List String) : PState :=
  if property_name == "N" then
    let name_parts := (splitOnChar ';' value).map pyStrip
    name_fields.enum.foldl
      (fun s p =>
        if decide (p.1 < name_parts.length) && (name_parts.getD p.1 "" != "") then
          addField s p.2 (name_parts.getD p.1 "")
        else s) st
  else if property_name == "FN" then
    addField st "Full Name" value
  else if property_name == "TEL" then
    addField st (telFieldName parameters) (cleanPhone value)
  else if property_name == "EMAIL" then
    let email_type := get_email_type parameters
    let field_name :=
      if email_type != "Email" then "Email (" ++ email_type ++ ")" else "Email"
    addField st field_name (pyLower value)
  else if property_name == "ADR" then
    let addr_parts := (splitOnChar ';' value).map pyStrip
    let addr_type := get_address_type parameters
    addr_fields.enum.foldl
      (fun s p =>
        if decide (p.1 < addr_parts.length) && (addr_parts.getD p.1 "" != "") then
          addField s
            (if addr_type != "Address" then p.2 ++ " (" ++ addr_type ++ ")" else p.2)
            (addr_parts.getD p.1 "")
        else s) st
  else if property_name == "ORG" then
    let org_parts := (splitOnChar ';' value).map pyStrip
    let st1 := addField st "Organization" (org_parts.headD "")
    if decide (1 < org_parts.length) && (org_parts.getD 1 "" != "") then
      addField st1 "Department" (org_parts.getD 1 "")
    else st1
  else if property_name == "TITLE" then
    addField st "Job Title" value
  else if property_name == "BDAY" then
    addField st "Birthday" (format_date value)
  else if property_name == "NOTE" then
    addField st "Notes" value
  else if property_name == "URL" then
    addField st "Website" value
  else if property_name == "NICKNAME" then
    addField st "Nickname" value
  else if property_name == "CATEGORIES" then
    addField st "Categories" value
  else if pyStartsWith property_name "X-" then
    addField st (pyTitle (pyReplace (pyReplace property_name "X-" "") "-" " ")) value
  else
    addField st (pyTitle (pyReplace property_name "-" " ")) value

/-! ## `parse_vcard` (lines 106-158) -/

/-- The line-continuation loop of lines 112-126.  Each raw line is first
`strip`ped, then tested for a leading space or tab; on the continuation
branch `line[1:]` is appended to the pending line, otherwise the pending
line (if non-empty) is emitted and the current line becomes pending; a
final non-empty pending line is emitted. -/
def processLoop : List String → String → List String
  | [], current => if current != "" then [current] else []
  | l :: rest, current =>
    let line := pyStrip l
    if pyStartsWith line " " || pyStartsWith line "\t" then
      processLoop rest (current ++ ⟨line.data.drop 1⟩)
    else
      if current != "" then current :: processLoop rest line
      else processLoop rest line

/-- The lines `vcard_text.strip().split` on newline, fed through the continuation loop. -/
def processedLines (vcard_text : String) : List String :=
  processLoop (splitOnChar '\n' (pyStrip vcard_text)) ""

/-- The body of the `for line in processed_lines` loop (lines 128-156):
skip empty/`BEGIN:VCARD`/`END:VCARD` lines, skip lines without `:`, split
on the first `:`, strip the value and skip if empty, split the property
part on `;` into an upper-cased name and upper-cased parameters, then
extract. -/
def stepLine (st : PState) (line : String) : PState :=
  if line == "" || pyStartsWith (pyUpper line) "BEGIN:VCARD"
      || pyStartsWith (pyUpper line) "END:VCARD" then st
  else
    match splitFirst ':' line with
    | none => st
    | some pv =>
      let value := pyStrip pv.2
      if value == "" then st
      else
        let pn_params :=
          if containsChar ';' pv.1 then
            (pyUpper ((splitOnChar ';' pv.1).headD ""),
             ((splitOnChar ';' pv.1).drop 1).map pyUpper)
          else (pyUpper pv.1, [])
        extract_field_data st pn_params.1 value pn_params.2

/-- The skip conditions of the line loop: empty line, `BEGIN:VCARD` /
`END:VCARD` marker, no `:` separator, or a value that is empty after
stripping.  A line satisfying `skipsLine` contributes nothing to the
contact and the loop continues with the next line
(`continue` on lines 130, 133, 141 and the caught-exception path). -/
def skipsLine (line : String) : Bool :=
  (line == "" || pyStartsWith (pyUpper line) "BEGIN:VCARD"
    || pyStartsWith (pyUpper line) "END:VCARD")
  || (match splitFirst ':' line with
      | none => true
      | some pv => pyStrip pv.2 == "")

/-- Function `VCFParser.parse_vcard`: fold the line loop over the processed lines
starting from a fresh contact, and `return contact if contact else None`.
The second component threads `self.all_fields`. -/
def parse_vcard (vcard_text : String) (all_fields : List String) :
    Option Contact × List String :=
  let r := (processedLines vcard_text).foldl stepLine ([], all_fields)
  (if r.1.isEmpty then none else some r.1, r.2)

/-- The contact produced for one block (the `all_fields` state does not
influence it; see `parse_vcard_fst_indep`). -/
def contactOf (vcard_text : String) : Option Contact :=
  (parse_vcard vcard_text []).1

/-- The `for i, vcard in enumerate(vcards)` loop of `VCFParser.parse`
(lines 89-97): parse each block and append the contact when truthy.  In
this pure model `parse_vcard` is total, so the per-block
`except ... continue` recovery path carries no additional behaviour. -/
def parse_blocks (vcards : List String) (all_fields : List String) :
    List Contact × List String :=
  vcards.foldl
    (fun acc v =>
      match parse_vcard v acc.2 with
      | (some c, f) => (acc.1 ++ [c], f)
      | (none, f) => (acc.1, f))
    ([], all_fields)

/-! ## `get_field_suggestions` (lines 324-343) -/

def groupDefs : List (String × List String) :=
  [("Name Fields", ["name", "nickname"]),
   ("Contact Fields", ["phone", "email", "website"]),
   ("Address Fields", ["address", "street", "city", "state", "postal", "country"]),
   ("Work Fields", ["organization", "title", "job", "department", "work"]),
   ("Personal Fields", ["birthday", "anniversary", "note", "categories"])]

/-- Python `any(keyword in f.lower() for keyword in keywords)`. -/
def fieldMatches (keywords : List String) (f : String) : Bool :=
  keywords.any (fun kw => containsSub (pyLower f) kw)

/-- Function `VCFParser.get_field_suggestions`: each of the five keyword groups is
an independent comprehension over `all_fields`; `Other Fields` collects
the fields in none of them; empty groups are dropped. -/
def get_field_suggestions (all_fields : List String) : List (String × List String) :=
  let sugg := groupDefs.map
    (fun gk => (gk.1, all_fields.filter (fun f => fieldMatches gk.2 f)))
  let used := (sugg.map (fun p => p.2)).flatten
  let other := all_fields.filter (fun f => !(used.contains f))
  (sugg ++ [("Other Fields", other)]).filter (fun p => !(p.2.isEmpty))

/-! ## The decoder candidate loop (lines 64-78)

`open(path, encoding=e).read()` succeeds or raises `UnicodeDecodeError`;
the loop returns the first encoding that decodes.  The codecs are
modelled on byte lists: strict UTF-8 (RFC 3629 ranges: no overlong forms,
no surrogates, at most U+10FFFF), `utf-8-sig` (same after stripping an
optional BOM), `latin1`/`iso-8859-1` (all 256 bytes map to U+00-U+FF),
and `cp1252` (Windows-1252, whose bytes 0x81, 0x8D, 0x8F, 0x90 and 0x9D
are unmapped and raise). -/

def isCont (b : Nat) : Bool := 0x80 ≤ b && b ≤ 0xBF

def utf8Decode : List Nat → Option (List Char)
  | [] => some []
  | b :: rest =>
    if b < 0x80 then (utf8Decode rest).map (fun cs => Char.ofNat b :: cs)
    else if 0xC2 ≤ b && b ≤ 0xDF then
      match rest with
      | b1 :: r =>
        if isCont b1 then
          (utf8Decode r).map (fun cs => Char.ofNat ((b - 0xC0) * 0x40 + (b1 - 0x80)) :: cs)
        else none
      | [] => none
    else if 0xE0 ≤ b && b ≤ 0xEF then
      match rest with
      | b1 :: b2 :: r =>
        let lo1 := if b == 0xE0 then 0xA0 else 0x80
        let hi1 := if b == 0xED then 0x9F else 0xBF
        if (lo1 ≤ b1 && b1 ≤ hi1) && isCont b2 then
          (utf8Decode r).map (fun cs =>
            Char.ofNat ((b - 0xE0) * 0x1000 + (b1 - 0x80) * 0x40 + (b2 - 0x80)) :: cs)
        else none
      | _ => none
    else if 0xF0 ≤ b && b ≤ 0xF4 then
      match rest with
      | b1 :: b2 :: b3 :: r =>
        let lo1 := if b == 0xF0 then 0x90 else 0x80
        let hi1 := if b == 0xF4 then 0x8F else 0xBF
        if (lo1 ≤ b1 && b1 ≤ hi1) && isCont b2 && isCont b3 then
          (utf8Decode r).map (fun cs =>
            Char.ofNat ((b - 0xF0) * 0x40000 + (b1 - 0x80) * 0x1000
              + (b2 - 0x80) * 0x40 + (b3 - 0x80)) :: cs)
        else none
      | _ => none
    else none

/-- Codec `utf-8-sig`: strip one leading BOM when present, then strict UTF-8. -/
def utf8SigDecode (bs : List Nat) : Option (List Char) :=
  match bs with
  | 0xEF :: 0xBB :: 0xBF :: rest => utf8Decode rest
  | _ => utf8Decode bs

/-- Codec `latin1`: every byte maps to the code point of the same value. -/
def latin1Decode (bs : List Nat) : Option (List Char) :=
  if bs.all (fun b => b < 256) then some (bs.map Char.ofNat) else none

/-- Codec `iso-8859-1` is the same codec as `latin1`. -/
def iso88591Decode (bs : List Nat) : Option (List Char) := latin1Decode bs

/-- The Windows-1252 table for one byte (0x80-0x9F remapped, five holes). -/
def cp1252Map (b : Nat) : Option Nat :=
  if b < 0x80 || (0xA0 ≤ b && b ≤ 0xFF) then some b
  else
    match b with
    | 0x80 => some 0x20AC
    | 0x82 => some 0x201A
    | 0x83 => some 0x0192
    | 0x84 => some 0x201E
    | 0x85 => some 0x2026
    | 0x86 => some 0x2020
    | 0x87 => some 0x2021
    | 0x88 => some 0x02C6
    | 0x89 => some 0x2030
    | 0x8A => some 0x0160
    | 0x8B => some 0x2039
    | 0x8C => some 0x0152
    | 0x8E => some 0x017D
    | 0x91 => some 0x2018
    | 0x92 => some 0x2019
    | 0x93 => some 0x201C
    | 0x94 => some 0x201D
    | 0x95 => some 0x2022
    | 0x96 => some 0x2013
    | 0x97 => some 0x2014
    | 0x98 => some 0x02DC
    | 0x99 => some 0x2122
    | 0x9A => some 0x0161
    | 0x9B => some 0x203A
    | 0x9C => some 0x0153
    | 0x9E => some 0x017E
    | 0x9F => some 0x0178
    | _ => none

def cp1252Decode (bs : List Nat) : Option (List Char) :=
  (bs.mapM cp1252Map).map (fun l => l.map Char.ofNat)

/-- First success of a list of decode attempts (`break` on success). -/
def firstSome {α : Type} : List (Option α) → Option α
  | [] => none
  | o :: rest =>
    match o with
    | some a => some a
    | none => firstSome rest

/-- The `for encoding in encodings` loop with its candidate order
`['utf-8', 'utf-8-sig', 'latin1', 'cp1252', 'iso-8859-1']`; `none` is the
`ValueError` raised when every candidate fails. -/
def decodeContent (bs : List Nat) : Option (List Char) :=
  firstSome
    [utf8Decode bs, utf8SigDecode bs, latin1Decode bs, cp1252Decode bs,
     iso88591Decode bs]

end VCF

namespace VCF

/-! ## Claim C1 — the folding round-trip does not survive the code

`parse_vcard` strips each raw line (line 116) *before* testing
`line.startswith(' ') or line.startswith('\t')` (line 117), so a stripped
line can never begin with whitespace and the continuation branch of
lines 118-119 is unreachable: a logical line split into a first physical
line plus a space-prefixed continuation is *not* reassembled. -/

/-- Claim C1: Evaluating the code at the failing input: the logical line
`FN:JohnSmith`, folded as `FN:John` plus the continuation ` Smith`, is
left as two separate lines by the continuation loop (the claimed result
would be the single line `FN:JohnSmith`), and the parsed contact records
`Full Name = "John"`, not `"JohnSmith"`. -/
theorem c1_unfold_failing_input :
    processedLines "BEGIN:VCARD\nFN:John\n Smith\nEND:VCARD"
        = ["BEGIN:VCARD", "FN:John", "Smith", "END:VCARD"]
      ∧ processedLines "BEGIN:VCARD\nFN:John\n Smith\nEND:VCARD"
        ≠ ["BEGIN:VCARD", "FN:JohnSmith", "END:VCARD"]
      ∧ contactOf "BEGIN:VCARD\nFN:John\n Smith\nEND:VCARD"
        = some [("Full Name", "John")] := by
  refine ⟨by decide, by decide, by decide⟩

/-! ## Claim C5 — parameters are bare upper-cased tokens -/

/-- Claim C5: `TEL;TYPE=CELL:...` yields plain `Phone` (text after `=` is
never interpreted, the whole segment `TYPE=CELL` fails the bare-token
lookup); `TEL;CELL:555-1234` yields `Phone (Mobile)` with the sanitized
value `555-1234`; `TEL:555-5678` with no parameters yields plain
`Phone`. -/
theorem c5_bare_parameter_tokens :
    parse_vcard "TEL;TYPE=CELL:555-9999" [] = (some [("Phone", "555-9999")], ["Phone"])
      ∧ parse_vcard "TEL;CELL:555-1234" []
        = (some [("Phone (Mobile)", "555-1234")], ["Phone (Mobile)"])
      ∧ parse_vcard "TEL:555-5678" [] = (some [("Phone", "555-5678")], ["Phone"]) := by
  refine ⟨by decide, by decide, by decide⟩

/-! ## Claim C10 — TEL sanitization can store an empty value -/

/-- Claim C10: The line `TEL:abc` has a non-empty value, so it is not
skipped; sanitization removes every character, the contact maps `Phone`
to the empty string, and `Phone` still enters `all_fields`. -/
theorem c10_empty_phone_value :
    parse_vcard "TEL:abc" [] = (some [("Phone", "")], ["Phone"])
      ∧ pyStrip "abc" ≠ "" := by
  refine ⟨by decide, by decide⟩

/-! ## Claim C6 — date patterns, order, and fallback -/

/-- Claim C6: `_format_date` tries `%Y%m%d`, `%Y-%m-%d`, `%m/%d/%Y`,
`%d/%m/%Y` in that order: `19850615` and `06/15/1985` normalize to
`1985-06-15`; `01/02/2000` (ambiguous between the two slash patterns)
resolves as `MM/DD/YYYY` because that pattern is tried first, while
`31/12/1999` (month out of range for `MM/DD`) falls through to
`DD/MM/YYYY`; an unparseable value such as `circa 1985` is returned
unchanged. -/
theorem c6_date_normalizer :
    format_date "19850615" = "1985-06-15"
      ∧ format_date "06/15/1985" = "1985-06-15"
      ∧ format_date "01/02/2000" = "2000-01-02"
      ∧ format_date "31/12/1999" = "1999-12-31"
      ∧ format_date "circa 1985" = "circa 1985" := by
  refine ⟨by decide, by decide, by decide, by decide, by decide⟩

/-! ## Claim C3 — phone type takes the first *input* match -/

/-- Claim C3, counterexample: The claim says type detection scans the fixed
priority list and is invariant under permutation of the parameters; the
code scans the parameters in input order, so `TEL;CELL;HOME:123` and
`TEL;HOME;CELL:123` derive different field names. -/
theorem c3_counterexample :
    telFieldName ["CELL", "HOME"] = "Phone (Mobile)"
      ∧ telFieldName ["HOME", "CELL"] = "Phone (Home)"
      ∧ telFieldName ["CELL", "HOME"] ≠ telFieldName ["HOME", "CELL"] := by
  refine ⟨by decide, by decide, by decide⟩

/-- Claim C3, amended: `_get_phone_type` scans the line's parameters in
input order and returns the mapped type of the first parameter that is a
key of the mapping; parameters not in the mapping are passed over. -/
theorem c3_first_input_match (ps₁ : List String) (p : String) (ps₂ : List String)
    (t : String) (h₁ : ∀ q ∈ ps₁, lookupAssoc telTypeMapping q = none)
    (h₂ : lookupAssoc telTypeMapping p = some t) :
    get_phone_type (ps₁ ++ p :: ps₂) = t := by
  induction ps₁ with
  | nil => simp [get_phone_type, h₂]
  | cons q rest ih =>
    have hq : lookupAssoc telTypeMapping q = none := h₁ q (by simp)
    simp only [List.cons_append, get_phone_type, hq]
    exact ih (fun x hx => h₁ x (by simp [hx]))

/-- Witness for `c3_first_input_match` at a concrete input. -/
theorem c3_first_input_match_witness :
    get_phone_type ["TYPE=CELL", "HOME", "CELL"] = "Home" :=
  c3_first_input_match ["TYPE=CELL"] "HOME" ["CELL"] "Home" (by decide) (by decide)

/-! ## Claim C7 — same derived field name: last write wins -/

/-- When the key is already present, `dict[k] = v` rewrites the value in
place. -/
theorem dictInsert_of_hasKey (c : Contact) (k v : String)
    (h : c.any (fun kv => kv.1 == k) = true) :
    dictInsert c k v = c.map (fun kv => if kv.1 == k then (kv.1, v) else kv) := by
  unfold dictInsert
  rw [if_pos h]

/-- After `dict[k] = v`, the key `k` is present. -/
theorem dictInsert_hasKey (c : Contact) (k v : String) :
    (dictInsert c k v).any (fun kv => kv.1 == k) = true := by
  unfold dictInsert
  by_cases h : c.any (fun kv => kv.1 == k) = true
  · rw [if_pos h, List.any_map]
    have hcong : ((fun kv : String × String => kv.1 == k)
          ∘ (fun kv => if kv.1 == k then (kv.1, v) else kv))
        = (fun kv : String × String => kv.1 == k) := by
      funext kv
      by_cases hk : kv.1 = k <;> simp [hk]
    rw [hcong]
    exact h
  · rw [if_neg h]
    simp

/-- Updating every entry whose key is `k` to the value `v` makes the
lookup of `k` return `v`, provided some entry has key `k`. -/
theorem lookupField_mapSet (c : Contact) (k v : String)
    (h : c.any (fun kv => kv.1 == k) = true) :
    lookupField (c.map (fun kv => if kv.1 == k then (kv.1, v) else kv)) k
      = some v := by
  induction c with
  | nil => simp at h
  | cons kv rest ih =>
    simp only [List.map_cons]
    by_cases hk : kv.1 = k
    · have hhead : (if kv.1 == k then (kv.1, v) else kv) = (kv.1, v) := by
        simp [hk]
      rw [hhead]
      unfold lookupField
      rw [List.find?_cons_of_pos _ (by simp [hk])]
      simp
    · have hhead : (if kv.1 == k then (kv.1, v) else kv) = kv := by
        simp [hk]
      rw [hhead]
      unfold lookupField
      rw [List.find?_cons_of_neg _ (by simp [hk])]
      apply ih
      simp only [List.any_cons] at h
      rcases Bool.or_eq_true_iff.mp h with h1 | h2
      · exact absurd (by simpa using h1) hk
      · exact h2

/-- Claim C7: Assigning twice under the same derived field name keeps a
single entry whose value is replaced by the later write: after the second
`contact[k] = v₂` the lookup of `k` yields `v₂` and the record did not
grow (no list accumulation); concretely, a block with two `TEL;HOME`
lines parses to a contact whose only `Phone (Home)` value is the second
line's. -/
theorem c7_last_write_wins :
    (∀ (c : Contact) (k v₁ v₂ : String),
        lookupField (dictInsert (dictInsert c k v₁) k v₂) k = some v₂
          ∧ (dictInsert (dictInsert c k v₁) k v₂).length
              = (dictInsert c k v₁).length)
      ∧ contactOf "TEL;HOME:111\nTEL;HOME:222" = some [("Phone (Home)", "222")] := by
  refine ⟨fun c k v₁ v₂ => ?_, by decide⟩
  have hk := dictInsert_hasKey c k v₁
  rw [dictInsert_of_hasKey (dictInsert c k v₁) k v₂ hk]
  exact ⟨lookupField_mapSet _ k v₂ hk, List.length_map _ _⟩

/-! ## Claim C2 — the five keyword groups are *not* exclusive

Each group of `get_field_suggestions` is an independent list
comprehension over `self.all_fields`; a field matching several keyword
lists appears in several groups (the `used_fields` set only feeds
`Other Fields`).  The field `Phone (Work)` — produced by any `TEL;WORK`
line — matches both the `Contact Fields` keyword `phone` and the
`Work Fields` keyword `work`. -/

/-- Claim C2, counterexample: With `all_fields = {"Phone (Work)"}` the
result places `Phone (Work)` in two groups, refuting "every FieldName
appears in exactly one group" and the first-match-wins removal. -/
theorem c2_counterexample :
    get_field_suggestions ["Phone (Work)"]
        = [("Contact Fields", ["Phone (Work)"]), ("Work Fields", ["Phone (Work)"])]
      ∧ ((get_field_suggestions ["Phone (Work)"]).filter
            (fun p => p.2.contains "Phone (Work)")).length = 2 := by
  refine ⟨by decide, by decide⟩

/-- Unfolded shape of `get_field_suggestions`. -/
theorem gfs_eq (all_fields : List String) :
    get_field_suggestions all_fields
      = ((groupDefs.map
            (fun gk => (gk.1, all_fields.filter (fun f => fieldMatches gk.2 f))))
          ++ [("Other Fields", all_fields.filter
                (fun f => !((((groupDefs.map
                    (fun gk => (gk.1, all_fields.filter (fun f => fieldMatches gk.2 f)))).map
                      (fun p => p.2)).flatten).contains f)))]).filter
          (fun p => !(p.2.isEmpty)) := rfl

/-- The five group names are pairwise distinct keys of `groupDefs`. -/
theorem groupDefs_name_inj :
    ∀ p ∈ groupDefs, ∀ q ∈ groupDefs, p.1 = q.1 → p.2 = q.2 := by decide

/-- The name `Other Fields` is not one of the five keyword-group names. -/
theorem groupDefs_no_other : ∀ p ∈ groupDefs, p.1 ≠ "Other Fields" := by decide

/-- Membership in the `used_fields` union. -/
theorem mem_usedFields (all_fields : List String) (f : String) :
    f ∈ (((groupDefs.map
            (fun gk => (gk.1, all_fields.filter (fun f => fieldMatches gk.2 f)))).map
              (fun p => p.2)).flatten)
      ↔ ∃ gk ∈ groupDefs, f ∈ all_fields.filter (fun x => fieldMatches gk.2 x) := by
  rw [List.mem_flatten]
  constructor
  · rintro ⟨l, hl, hfl⟩
    rw [List.map_map, List.mem_map] at hl
    obtain ⟨gk, hgk, rfl⟩ := hl
    exact ⟨gk, hgk, hfl⟩
  · rintro ⟨gk, hgk, hfl⟩
    refine ⟨all_fields.filter (fun x => fieldMatches gk.2 x), ?_, hfl⟩
    rw [List.map_map, List.mem_map]
    exact ⟨gk, hgk, rfl⟩

/-- Claim C2, amended: Every field of the finalized `FieldSet` appears in
*every* keyword group whose list matches it case-insensitively by
substring — possibly more than one, since matching a group does not
remove the field from consideration for later groups; a field matching
no keyword list lands in `Other Fields`; groups that end up empty are
omitted from the result. -/
theorem c2_groups_not_exclusive (all_fields : List String) (f : String)
    (hf : f ∈ all_fields) :
    (∀ p ∈ get_field_suggestions all_fields, p.2 ≠ [])
      ∧ (∀ g kws, (g, kws) ∈ groupDefs →
          ((∃ l, (g, l) ∈ get_field_suggestions all_fields ∧ f ∈ l)
            ↔ fieldMatches kws f = true))
      ∧ ((∃ l, ("Other Fields", l) ∈ get_field_suggestions all_fields ∧ f ∈ l)
          ↔ ∀ gk ∈ groupDefs, fieldMatches gk.2 f = false) := by
  refine ⟨?_, ?_, ?_⟩
  · intro p hp hnil
    rw [gfs_eq] at hp
    have h2 := (List.mem_filter.mp hp).2
    rw [hnil] at h2
    simp at h2
  · intro g kws hgk
    constructor
    · rintro ⟨l, hl, hfl⟩
      rw [gfs_eq] at hl
      have h1 := (List.mem_filter.mp hl).1
      rcases List.mem_append.mp h1 with hin | hother
      · rw [List.mem_map] at hin
        obtain ⟨gk', hgk', heq⟩ := hin
        have hname : gk'.1 = g := congrArg Prod.fst heq
        have hkws : gk'.2 = kws := groupDefs_name_inj gk' hgk' (g, kws) hgk hname
        have hl' : l = all_fields.filter (fun x => fieldMatches gk'.2 x) :=
          (congrArg Prod.snd heq).symm
        rw [hl'] at hfl
        have := (List.mem_filter.mp hfl).2
        rwa [hkws] at this
      · rw [List.mem_singleton] at hother
        have : g = "Other Fields" := congrArg Prod.fst hother
        exact absurd this (groupDefs_no_other (g, kws) hgk)
    · intro hm
      refine ⟨all_fields.filter (fun x => fieldMatches kws x), ?_, ?_⟩
      · rw [gfs_eq]
        refine List.mem_filter.mpr ⟨List.mem_append_left _ ?_, ?_⟩
        · rw [List.mem_map]
          exact ⟨(g, kws), hgk, rfl⟩
        · have hmem : f ∈ all_fields.filter (fun x => fieldMatches kws x) :=
            List.mem_filter.mpr ⟨hf, hm⟩
          cases hl : all_fields.filter (fun x => fieldMatches kws x) with
          | nil => exact absurd (hl ▸ hmem) (List.not_mem_nil f)
          | cons a t => rfl
      · exact List.mem_filter.mpr ⟨hf, hm⟩
  · constructor
    · rintro ⟨l, hl, hfl⟩ gk hgk
      rw [gfs_eq] at hl
      have h1 := (List.mem_filter.mp hl).1
      rcases List.mem_append.mp h1 with hin | hother
      · rw [List.mem_map] at hin
        obtain ⟨gk', hgk', heq⟩ := hin
        exact absurd (congrArg Prod.fst heq) (groupDefs_no_other gk' hgk')
      · rw [List.mem_singleton] at hother
        have hl' : l = all_fields.filter
            (fun x => !((((groupDefs.map (fun gk =>
                (gk.1, all_fields.filter (fun f => fieldMatches gk.2 f)))).map
                  (fun p => p.2)).flatten).contains x)) :=
          congrArg Prod.snd hother
        rw [hl'] at hfl
        have hnc : (((groupDefs.map (fun gk =>
            (gk.1, all_fields.filter (fun f => fieldMatches gk.2 f)))).map
              (fun p => p.2)).flatten).contains f = false := by
          simpa using (List.mem_filter.mp hfl).2
        cases hb : fieldMatches gk.2 f with
        | false => rfl
        | true =>
          exfalso
          have hin : f ∈ (((groupDefs.map (fun gk =>
              (gk.1, all_fields.filter (fun f => fieldMatches gk.2 f)))).map
                (fun p => p.2)).flatten) :=
            (mem_usedFields all_fields f).mpr
              ⟨gk, hgk, List.mem_filter.mpr ⟨hf, hb⟩⟩
          have hct : (((groupDefs.map (fun gk =>
              (gk.1, all_fields.filter (fun f => fieldMatches gk.2 f)))).map
                (fun p => p.2)).flatten).contains f = true :=
            List.elem_iff.mpr hin
          rw [hnc] at hct
          exact Bool.false_ne_true hct
    · intro hall
      have hnot : ¬ f ∈ (((groupDefs.map (fun gk =>
          (gk.1, all_fields.filter (fun f => fieldMatches gk.2 f)))).map
            (fun p => p.2)).flatten) := by
        intro hin
        obtain ⟨gk, hgk, hfl⟩ := (mem_usedFields all_fields f).mp hin
        have hb := (List.mem_filter.mp hfl).2
        rw [hall gk hgk] at hb
        exact Bool.false_ne_true hb
      have hcont : (((groupDefs.map (fun gk =>
          (gk.1, all_fields.filter (fun f => fieldMatches gk.2 f)))).map
            (fun p => p.2)).flatten).contains f = false := by
        cases hc : (((groupDefs.map (fun gk =>
            (gk.1, all_fields.filter (fun f => fieldMatches gk.2 f)))).map
              (fun p => p.2)).flatten).contains f with
        | false => rfl
        | true => exact absurd (List.elem_iff.mp hc) hnot
      have hfo : f ∈ all_fields.filter
          (fun x => !((((groupDefs.map (fun gk =>
              (gk.1, all_fields.filter (fun f => fieldMatches gk.2 f)))).map
                (fun p => p.2)).flatten).contains x)) :=
        List.mem_filter.mpr ⟨hf, by simpa using hcont⟩
      refine ⟨_, ?_, hfo⟩
      rw [gfs_eq]
      refine List.mem_filter.mpr ⟨List.mem_append_right _ (List.mem_singleton.mpr rfl), ?_⟩
      have hie : (all_fields.filter
          (fun x => !((((groupDefs.map (fun gk =>
              (gk.1, all_fields.filter (fun f => fieldMatches gk.2 f)))).map
                (fun p => p.2)).flatten).contains x))).isEmpty = false := by
        cases hx : all_fields.filter
            (fun x => !((((groupDefs.map (fun gk =>
                (gk.1, all_fields.filter (fun f => fieldMatches gk.2 f)))).map
                  (fun p => p.2)).flatten).contains x)) with
        | nil => rw [hx] at hfo; exact absurd hfo (List.not_mem_nil f)
        | cons a t => rfl
      simpa using hie

/-- Witness for `c2_groups_not_exclusive`: `Phone (Work)` sits in the
`Work Fields` group (as well as `Contact Fields`). -/
theorem c2_groups_not_exclusive_witness :
    ∃ l, ("Work Fields", l) ∈ get_field_suggestions ["Phone (Work)"]
      ∧ "Phone (Work)" ∈ l :=
  (((c2_groups_not_exclusive ["Phone (Work)"] "Phone (Work)" (by decide)).2.1
      "Work Fields" ["organization", "title", "job", "department", "work"]
      (by decide)).mpr (by decide))

/-! ## Claim C8 — decoder candidate order -/

/-- Claim C8: The decoder loop returns the text of the first candidate in
the order UTF-8, UTF-8-with-BOM, Latin-1, Windows-1252, ISO-8859-1 that
decodes without error, and fails only when every candidate fails. -/
theorem c8_decoder_order (bs : List Nat) :
    (decodeContent bs = none
        ↔ utf8Decode bs = none ∧ utf8SigDecode bs = none ∧ latin1Decode bs = none
            ∧ cp1252Decode bs = none ∧ iso88591Decode bs = none)
      ∧ (∀ t, utf8Decode bs = some t → decodeContent bs = some t)
      ∧ (utf8Decode bs = none →
          ∀ t, utf8SigDecode bs = some t → decodeContent bs = some t)
      ∧ (utf8Decode bs = none → utf8SigDecode bs = none →
          ∀ t, latin1Decode bs = some t → decodeContent bs = some t)
      ∧ (utf8Decode bs = none → utf8SigDecode bs = none → latin1Decode bs = none →
          ∀ t, cp1252Decode bs = some t → decodeContent bs = some t)
      ∧ (utf8Decode bs = none → utf8SigDecode bs = none → latin1Decode bs = none →
          cp1252Decode bs = none →
          ∀ t, iso88591Decode bs = some t → decodeContent bs = some t) := by
  unfold decodeContent
  cases h1 : utf8Decode bs <;> cases h2 : utf8SigDecode bs <;>
    cases h3 : latin1Decode bs <;> cases h4 : cp1252Decode bs <;>
    cases h5 : iso88591Decode bs <;>
    simp [firstSome]

/-- Witness for `c8_decoder_order`: the byte `0xFF` is rejected by the
two UTF-8 candidates and accepted by Latin-1, whose text is returned. -/
theorem c8_decoder_order_witness :
    decodeContent [255] = some [Char.ofNat 255] :=
  (c8_decoder_order [255]).2.2.2.1 (by decide) (by decide) [Char.ofNat 255] (by decide)

/-! ## Claim C4 — per-line/per-block skipping, empty blocks dropped

In this pure embedding every line and block operation is total, so the
`except ... continue` recovery around a line (lines 154-156) and around a
block (lines 95-97) carries no extra behaviour; what remains observable —
and is proved here — is that a skipped line leaves the state untouched
while processing continues with the remaining lines, that a block whose
lines all skip yields no contact (`return contact if contact else None`),
and that each such block lowers the record count by exactly one. -/

/-- A line satisfying the skip conditions leaves the parser state
unchanged. -/
theorem stepLine_skip (l : String) (h : skipsLine l = true) (st : PState) :
    stepLine st l = st := by
  unfold stepLine
  unfold skipsLine at h
  by_cases h1 : (l == "" || pyStartsWith (pyUpper l) "BEGIN:VCARD"
      || pyStartsWith (pyUpper l) "END:VCARD") = true
  · simp [h1]
  · rw [Bool.not_eq_true] at h1
    rw [h1, Bool.false_or] at h
    simp only [h1, Bool.false_eq_true, if_false]
    cases hsp : splitFirst ':' l with
    | none => rfl
    | some pv =>
      rw [hsp] at h
      have h' : pyStrip pv.2 = "" := by simpa using h
      simp [h']

/-- Skipped lines are passed over and the fold continues with the rest. -/
theorem foldl_stepLine_skip (lines : List String)
    (h : ∀ l ∈ lines, skipsLine l = true) (st : PState) :
    lines.foldl stepLine st = st := by
  induction lines generalizing st with
  | nil => rfl
  | cons l rest ih =>
    rw [List.foldl_cons, stepLine_skip l (h l (by simp)) st]
    exact ih (fun x hx => h x (by simp [hx])) st

/-- A block all of whose processed lines skip produces no contact. -/
theorem contactOf_of_all_skipped (b : String)
    (h : ∀ l ∈ processedLines b, skipsLine l = true) : contactOf b = none := by
  unfold contactOf parse_vcard
  rw [foldl_stepLine_skip _ h]
  rfl

/-- The contact component of a guarded `addField` fold ignores the
`all_fields` component of the state. -/
theorem foldl_addIf_fst {α : Type} (xs : List α) (cond : α → Bool)
    (key v : α → String) :
    ∀ st : PState,
      (xs.foldl (fun s p => if cond p then addField s (key p) (v p) else s) st).1
        = xs.foldl (fun c p => if cond p then dictInsert c (key p) (v p) else c) st.1 := by
  induction xs with
  | nil => intro st; rfl
  | cons x rest ih =>
    intro st
    by_cases hc : cond x = true
    · simp only [List.foldl_cons, hc, if_true]
      exact ih (addField st (key x) (v x))
    · rw [Bool.not_eq_true] at hc
      simp only [List.foldl_cons, hc, Bool.false_eq_true, if_false]
      exact ih st

/-- The contact component of the `ORG` branch shape (one unconditional
insert followed by a conditional one) ignores the `all_fields`
component. -/
theorem org_branch_fst (c : Contact) (f f' : List String) (cond : Bool)
    (k₁ v₁ k₂ v₂ : String) :
    (if cond then addField (addField (c, f) k₁ v₁) k₂ v₂
      else addField (c, f) k₁ v₁).1
      = (if cond then addField (addField (c, f') k₁ v₁) k₂ v₂
          else addField (c, f') k₁ v₁).1 := by
  cases cond <;> rfl

set_option maxHeartbeats 1000000 in
/-- Function `_extract_field_data` computes the new contact from the old contact
alone; the threaded `all_fields` never feeds back into it. -/
theorem extract_field_data_fst (c : Contact) (f f' : List String)
    (n v : String) (ps : List String) :
    (extract_field_data (c, f) n v ps).1 = (extract_field_data (c, f') n v ps).1 := by
  unfold extract_field_data
  by_cases h1 : (n == "N") = true
  · rw [if_pos h1, if_pos h1]
    exact (foldl_addIf_fst _ _ _ _ (c, f)).trans
      (foldl_addIf_fst _ _ _ _ (c, f')).symm
  rw [if_neg h1, if_neg h1]
  by_cases h2 : (n == "FN") = true
  · rw [if_pos h2, if_pos h2]
    rfl
  rw [if_neg h2, if_neg h2]
  by_cases h3 : (n == "TEL") = true
  · rw [if_pos h3, if_pos h3]
    rfl
  rw [if_neg h3, if_neg h3]
  by_cases h4 : (n == "EMAIL") = true
  · rw [if_pos h4, if_pos h4]
    rfl
  rw [if_neg h4, if_neg h4]
  by_cases h5 : (n == "ADR") = true
  · rw [if_pos h5, if_pos h5]
    exact (foldl_addIf_fst _ _ _ _ (c, f)).trans
      (foldl_addIf_fst _ _ _ _ (c, f')).symm
  rw [if_neg h5, if_neg h5]
  by_cases h6 : (n == "ORG") = true
  · rw [if_pos h6, if_pos h6]
    exact org_branch_fst c f f' _ _ _ _ _
  rw [if_neg h6, if_neg h6]
  by_cases h7 : (n == "TITLE") = true
  · rw [if_pos h7, if_pos h7]
    rfl
  rw [if_neg h7, if_neg h7]
  by_cases h8 : (n == "BDAY") = true
  · rw [if_pos h8, if_pos h8]
    rfl
  rw [if_neg h8, if_neg h8]
  by_cases h9 : (n == "NOTE") = true
  · rw [if_pos h9, if_pos h9]
    rfl
  rw [if_neg h9, if_neg h9]
  by_cases h10 : (n == "URL") = true
  · rw [if_pos h10, if_pos h10]
    rfl
  rw [if_neg h10, if_neg h10]
  by_cases h11 : (n == "NICKNAME") = true
  · rw [if_pos h11, if_pos h11]
    rfl
  rw [if_neg h11, if_neg h11]
  by_cases h12 : (n == "CATEGORIES") = true
  · rw [if_pos h12, if_pos h12]
    rfl
  rw [if_neg h12, if_neg h12]
  by_cases h13 : (pyStartsWith n "X-") = true
  · rw [if_pos h13, if_pos h13]
    rfl
  rw [if_neg h13, if_neg h13]
  rfl

/-- One line-loop step computes the new contact from the old contact
alone. -/
theorem stepLine_fst (l : String) (c : Contact) (f f' : List String) :
    (stepLine (c, f) l).1 = (stepLine (c, f') l).1 := by
  unfold stepLine
  by_cases h1 : (l == "" || pyStartsWith (pyUpper l) "BEGIN:VCARD"
      || pyStartsWith (pyUpper l) "END:VCARD") = true
  · simp [h1]
  · rw [Bool.not_eq_true] at h1
    simp only [h1, Bool.false_eq_true, if_false]
    cases hsp : splitFirst ':' l with
    | none => rfl
    | some pv =>
      by_cases hv : (pyStrip pv.2 == "") = true
      · simp [hv]
      · rw [Bool.not_eq_true] at hv
        simp only [hv, Bool.false_eq_true, if_false]
        exact extract_field_data_fst c f f' _ _ _

/-- The whole line fold computes the contact from the contact alone. -/
theorem foldl_stepLine_fst (lines : List String) :
    ∀ (c : Contact) (f f' : List String),
      (lines.foldl stepLine (c, f)).1 = (lines.foldl stepLine (c, f')).1 := by
  induction lines with
  | nil => intros; rfl
  | cons l rest ih =>
    intro c f f'
    simp only [List.foldl_cons]
    calc (rest.foldl stepLine (stepLine (c, f) l)).1
        = (rest.foldl stepLine ((stepLine (c, f) l).1, (stepLine (c, f) l).2)).1 := rfl
      _ = (rest.foldl stepLine ((stepLine (c, f') l).1, (stepLine (c, f) l).2)).1 := by
            rw [stepLine_fst l c f f']
      _ = (rest.foldl stepLine ((stepLine (c, f') l).1, (stepLine (c, f') l).2)).1 :=
            ih _ _ _
      _ = (rest.foldl stepLine (stepLine (c, f') l)).1 := rfl

/-- The contact returned by `parse_vcard` does not depend on the incoming
`all_fields` state. -/
theorem parse_vcard_fst_indep (b : String) (f f' : List String) :
    (parse_vcard b f).1 = (parse_vcard b f').1 := by
  simp only [parse_vcard]
  rw [foldl_stepLine_fst (processedLines b) [] f f']

/-- The record sequence of the block loop is the `filterMap` of the
per-block contact. -/
theorem parse_blocks_foldl_fst (blocks : List String) :
    ∀ (acc : List Contact) (f : List String),
      (blocks.foldl
        (fun acc v =>
          match parse_vcard v acc.2 with
          | (some c, fl) => (acc.1 ++ [c], fl)
          | (none, fl) => (acc.1, fl)) (acc, f)).1
      = acc ++ blocks.filterMap contactOf := by
  induction blocks with
  | nil => intro acc f; simp
  | cons b rest ih =>
    intro acc f
    simp only [List.foldl_cons, List.filterMap_cons]
    have hb : (parse_vcard b f).1 = contactOf b := parse_vcard_fst_indep b f []
    cases hc : contactOf b with
    | none =>
      have hpair : parse_vcard b f = (none, (parse_vcard b f).2) := by
        have h1 : (parse_vcard b f).1 = none := hb.trans hc
        exact Prod.ext h1 rfl
      rw [hpair]
      exact ih acc ((parse_vcard b f).2)
    | some c =>
      have hpair : parse_vcard b f = (some c, (parse_vcard b f).2) := by
        have h1 : (parse_vcard b f).1 = some c := hb.trans hc
        exact Prod.ext h1 rfl
      rw [hpair]
      rw [ih (acc ++ [c]) ((parse_vcard b f).2)]
      simp

/-- Function `VCFParser.parse` collects exactly the blocks whose contact is
truthy. -/
theorem parse_blocks_eq (blocks : List String) (f : List String) :
    (parse_blocks blocks f).1 = blocks.filterMap contactOf := by
  unfold parse_blocks
  simpa using parse_blocks_foldl_fst blocks [] f

/-- When every element yields a contact, nothing is dropped. -/
theorem filterMap_contactOf_all_some (l : List String)
    (h : ∀ y ∈ l, (contactOf y).isSome = true) :
    (l.filterMap contactOf).length = l.length := by
  induction l with
  | nil => rfl
  | cons y rest ih =>
    obtain ⟨c, hc⟩ := Option.isSome_iff_exists.mp (h y (by simp))
    rw [List.filterMap_cons, hc]
    simp only [List.length_cons]
    rw [ih (fun x hx => h x (by simp [hx]))]

/-- Exactly one block yields no contact: the record count drops by one. -/
theorem filterMap_contactOf_one_none (blocks : List String) (b : String) :
    blocks.count b = 1 → contactOf b = none →
    (∀ x ∈ blocks, x ≠ b → (contactOf x).isSome = true) →
    (blocks.filterMap contactOf).length + 1 = blocks.length := by
  induction blocks with
  | nil => intro h1; simp at h1
  | cons x rest ih =>
    intro h1 h2 h3
    by_cases hx : x = b
    · subst hx
      have hcnt : rest.count x = 0 := by
        rw [List.count_cons_self] at h1
        omega
      have hnotin : x ∉ rest := List.count_eq_zero.mp hcnt
      have hall : ∀ y ∈ rest, (contactOf y).isSome = true := fun y hy =>
        h3 y (by simp [hy]) (fun he => hnotin (he ▸ hy))
      rw [List.filterMap_cons, h2, filterMap_contactOf_all_some rest hall]
      simp
    · have hbx : b ≠ x := fun e => hx e.symm
      have hcnt : rest.count b = 1 := by
        rwa [List.count_cons_of_ne hbx] at h1
      obtain ⟨c, hc⟩ := Option.isSome_iff_exists.mp (h3 x (by simp) hx)
      rw [List.filterMap_cons, hc]
      simp only [List.length_cons]
      have := ih hcnt h2 (fun y hy hne => h3 y (by simp [hy]) hne)
      omega

/-- Claim C4: A line meeting the skip conditions is passed over and
processing continues with the remaining lines of its block; a block all
of whose processed lines skip yields no `ContactRecord`
(`return contact if contact else None`), and when it is the unique such
block the output record count is exactly the block count minus one. -/
theorem c4_unparseable_block_dropped (blocks : List String) (b : String)
    (h1 : blocks.count b = 1)
    (h2 : ∀ l ∈ processedLines b, skipsLine l = true)
    (h3 : ∀ x ∈ blocks, x ≠ b → (contactOf x).isSome = true) :
    contactOf b = none
      ∧ (parse_blocks blocks []).1.length + 1 = blocks.length
      ∧ (∀ (st : PState) (l : String) (rest : List String), skipsLine l = true →
          (l :: rest).foldl stepLine st = rest.foldl stepLine st) := by
  have hb := contactOf_of_all_skipped b h2
  refine ⟨hb, ?_, ?_⟩
  · rw [parse_blocks_eq]
    exact filterMap_contactOf_one_none blocks b h1 hb h3
  · intro st l rest hl
    rw [List.foldl_cons, stepLine_skip l hl st]

/-- Witness for `c4_unparseable_block_dropped`: two blocks, the second
containing only a colon-less line between the markers; one record comes
out. -/
theorem c4_unparseable_block_dropped_witness :
    contactOf "BEGIN:VCARD\nnocolonline\nEND:VCARD" = none
      ∧ (parse_blocks
          ["BEGIN:VCARD\nFN:Ann\nEND:VCARD", "BEGIN:VCARD\nnocolonline\nEND:VCARD"]
          []).1.length + 1 = 2 := by
  have h := c4_unparseable_block_dropped
    ["BEGIN:VCARD\nFN:Ann\nEND:VCARD", "BEGIN:VCARD\nnocolonline\nEND:VCARD"]
    "BEGIN:VCARD\nnocolonline\nEND:VCARD" (by decide) (by decide) (by decide)
  exact ⟨h.1, h.2.1⟩

/-! ## Claim C9 — `_format_date` is idempotent

If no pattern matches, the input comes back unchanged and a second
application changes nothing either.  If a pattern matches, the output is
the canonical `YYYY-MM-DD` rendering of a valid date; re-running the
normalizer on that rendering fails `%Y%m%d` (the fifth character is `-`)
and re-parses the same `(y, m, d)` with `%Y-%m-%d`, reproducing the same
string. -/

/-- Digits render as digits. -/
theorem digitChar_isDigit (k : Nat) (h : k < 10) :
    isDigitC (Nat.digitChar k) = true := by
  interval_cases k <;> decide

/-- Function `charVal` inverts `Nat.digitChar` below 10. -/
theorem charVal_digitChar (k : Nat) (h : k < 10) :
    charVal (Nat.digitChar k) = k := by
  interval_cases k <;> decide

/-- Directive `%Y` consumes exactly the four padded digits of a year ≤ 9999. -/
theorem parseY_pad4 (y : Nat) (h : y ≤ 9999) (r : List Char) :
    parseY (pad4 y ++ r) = [(y, r)] := by
  have h3 : y / 1000 % 10 < 10 := Nat.mod_lt _ (by omega)
  have h2 : y / 100 % 10 < 10 := Nat.mod_lt _ (by omega)
  have h1 : y / 10 % 10 < 10 := Nat.mod_lt _ (by omega)
  have h0 : y % 10 < 10 := Nat.mod_lt _ (by omega)
  show parseY (Nat.digitChar (y / 1000 % 10) :: Nat.digitChar (y / 100 % 10)
      :: Nat.digitChar (y / 10 % 10) :: Nat.digitChar (y % 10) :: r) = [(y, r)]
  simp [parseY, digitChar_isDigit _ h3, digitChar_isDigit _ h2,
    digitChar_isDigit _ h1, digitChar_isDigit _ h0,
    charVal_digitChar _ h3, charVal_digitChar _ h2, charVal_digitChar _ h1,
    charVal_digitChar _ h0]
  omega

/-- Directive `%m` cannot start at a `-`. -/
theorem parseM_dash (cs : List Char) : parseM ('-' :: cs) = [] := by
  cases cs <;> rfl

/-- On the padded rendering of a month, the first `%m` alternative that
fires consumes both characters and yields the month itself. -/
theorem parseM_pad2 (m : Nat) (h1 : 1 ≤ m) (h2 : m ≤ 12) (r : List Char) :
    ∃ junk, parseM (pad2 m ++ r) = (m, r) :: junk := by
  interval_cases m <;> exact ⟨_, rfl⟩

/-- On the padded rendering of a day, the first `%d` alternative that
fires consumes both characters and yields the day itself. -/
theorem parseD_pad2 (d : Nat) (h1 : 1 ≤ d) (h2 : d ≤ 31) (r : List Char) :
    ∃ junk, parseD (pad2 d ++ r) = (d, r) :: junk := by
  interval_cases d <;> exact ⟨_, rfl⟩

/-- Format `%Y%m%d` has no match on the canonical rendering: after the year the
next character is `-`. -/
theorem matchYmd_canon (y m d : Nat) (hy : y ≤ 9999) :
    matchYmd (canonChars y m d) = [] := by
  unfold matchYmd canonChars
  rw [parseY_pad4 y hy]
  simp [parseM_dash]

/-- A literal consumes its own character. -/
theorem parseLit_self (c : Char) (rest : List Char) :
    parseLit c (c :: rest) = [rest] := by
  simp [parseLit]

/-- Format `%Y-%m-%d` re-parses the canonical rendering to the same triple, as
its first backtracking match, with nothing left over. -/
theorem matchYdash_canon (y m d : Nat) (hy : y ≤ 9999)
    (hm1 : 1 ≤ m) (hm2 : m ≤ 12) (hd1 : 1 ≤ d) (hd2 : d ≤ 31) :
    ∃ junk, matchYdash (canonChars y m d) = (y, m, d, ([] : List Char)) :: junk := by
  unfold matchYdash canonChars
  rw [parseY_pad4 y hy]
  obtain ⟨junkM, hM⟩ := parseM_pad2 m hm1 hm2 ('-' :: pad2 d)
  obtain ⟨junkD, hD'⟩ := parseD_pad2 d hd1 hd2 []
  have hD : parseD (pad2 d) = (d, ([] : List Char)) :: junkD := by
    rwa [List.append_nil] at hD'
  simp only [List.flatMap_cons, List.flatMap_nil, List.append_nil, List.nil_append,
    List.cons_append, List.map_cons, parseLit_self, hM, hD]
  exact ⟨_, rfl⟩

/-- Parsed results of `tryFormat` always carry a valid date. -/
theorem tryFormat_valid (ms : List (Nat × Nat × Nat × List Char))
    (y m d : Nat) (h : tryFormat ms = some (y, m, d)) :
    validDate y m d = true := by
  cases hh : ms.head? with
  | none => simp [tryFormat, hh] at h
  | some t =>
    obtain ⟨y', m', d', rest⟩ := t
    cases rest with
    | cons a b => simp [tryFormat, hh] at h
    | nil =>
      simp only [tryFormat, hh] at h
      split at h
      · simp only [Option.some.injEq, Prod.mk.injEq] at h
        obtain ⟨rfl, rfl, rfl⟩ := h
        assumption
      · exact absurd h (by simp)

/-- Function `strptimeFirst` only succeeds with a valid date. -/
theorem strptimeFirst_valid (cs : List Char) (y m d : Nat)
    (h : strptimeFirst cs = some (y, m, d)) : validDate y m d = true := by
  unfold strptimeFirst at h
  cases h1 : tryFormat (matchYmd cs) with
  | some t =>
    rw [h1] at h
    injection h with h'
    exact tryFormat_valid _ y m d (h' ▸ h1)
  | none =>
    rw [h1] at h
    cases h2 : tryFormat (matchYdash cs) with
    | some t =>
      rw [h2] at h
      injection h with h'
      exact tryFormat_valid _ y m d (h' ▸ h2)
    | none =>
      rw [h2] at h
      cases h3 : tryFormat (matchMdy cs) with
      | some t =>
        rw [h3] at h
        injection h with h'
        exact tryFormat_valid _ y m d (h' ▸ h3)
      | none =>
        rw [h3] at h
        exact tryFormat_valid _ y m d h

/-- Every month has at most 31 days. -/
theorem daysInMonth_le (y m : Nat) : daysInMonth y m ≤ 31 := by
  unfold daysInMonth
  split_ifs <;> omega

/-- The canonical rendering of a valid date re-parses to the same date:
`%Y%m%d` fails on the dash, `%Y-%m-%d` succeeds first. -/
theorem strptimeFirst_canon (y m d : Nat) (hv : validDate y m d = true) :
    strptimeFirst (canonChars y m d) = some (y, m, d) := by
  have hb : 1 ≤ y ∧ y ≤ 9999 ∧ 1 ≤ m ∧ m ≤ 12 ∧ 1 ≤ d ∧ d ≤ daysInMonth y m := by
    unfold validDate at hv
    simp only [Bool.and_eq_true, decide_eq_true_eq] at hv
    tauto
  obtain ⟨hy1, hy2, hm1, hm2, hd1, hdm⟩ := hb
  have hd31 : d ≤ 31 := le_trans hdm (daysInMonth_le y m)
  have h1 : tryFormat (matchYmd (canonChars y m d)) = none := by
    rw [matchYmd_canon y m d hy2]
    rfl
  obtain ⟨junk, h2⟩ := matchYdash_canon y m d hy2 hm1 hm2 hd1 hd31
  have h3 : tryFormat (matchYdash (canonChars y m d)) = some (y, m, d) := by
    rw [h2]
    simp [tryFormat, hv]
  unfold strptimeFirst
  rw [h1, h3]

/-- Claim C9: `_format_date` is idempotent: a value that matched a pattern
is reproduced verbatim by a second pass (its canonical form re-parses to
the same date), and a value that matched nothing is returned unchanged
by every pass. -/
theorem c9_format_date_idempotent (s : String) :
    format_date (format_date s) = format_date s := by
  cases h : strptimeFirst s.data with
  | none =>
    have hs : format_date s = s := by
      unfold format_date
      rw [h]
    rw [hs]
    exact hs
  | some t =>
    obtain ⟨y, m, d⟩ := t
    have hs : format_date s = ⟨canonChars y m d⟩ := by
      unfold format_date
      rw [h]
    have hv := strptimeFirst_valid s.data y m d h
    have hc : strptimeFirst (String.data ⟨canonChars y m d⟩) = some (y, m, d) :=
      strptimeFirst_canon y m d hv
    rw [hs]
    unfold format_date
    rw [hc]

end VCF
